import Mathlib

/-!
# Verification of the sambot job-orchestration layer

A shallow embedding of the orchestration core of the `sambot` repository:

* `GitHubPoller._poll` and `GitHubPoller.start` (src/sambot/github/poller.py),
* `process_story`, `_commit_and_push` (src/sambot/jobs/worker.py),
* `PRManager.rebase_merge` (src/sambot/github/pr.py),
* `_recover_interrupted_jobs`, `_reset_failed_job_records` (src/sambot/main.py).

The embedding models Python sets as `Finset Nat`, the project-board item
list as a `List ProjectItem` in board order (top-to-bottom priority), and
the Redis retry set read at each tick as a per-tick input.  External
effects (board status updates, Redis writes, git subprocesses, callbacks)
are recorded explicitly in result structures.  Timestamps are abstracted
to a `completed : Bool` flag; the branch-name computation and PR numbers
(not the subject of any theorem here) are taken as inputs.
-/

namespace Sambot

/-! ## Poller model (src/sambot/github/poller.py) -/

/-- Python `str.lower()` (statuses and branch names in this code base are
ASCII, for which `Char.toLower` agrees with Python). -/
def strLower (s : String) : String := String.mk (s.data.map Char.toLower)

/-- A project-board item as returned by `ProjectsClient.get_items`
(fields used by the poller). -/
structure ProjectItem where
  issue_number : Nat
  status : String
  title : String
deriving DecidableEq

/-- The poller's process-lifetime mutable state: `_seen_issues` and
`_left_ready`. -/
structure PollerState where
  seen_issues : Finset Nat
  left_ready : Finset Nat
deriving DecidableEq

/-- `status_by_issue = {item.issue_number: item.status.lower() for item in items}`
with `.get(n, "")`: the lower-cased status of the *last* item carrying
issue number `n`, or `""` when absent. -/
def status_by_issue (items : List ProjectItem) (n : Nat) : String :=
  match items.reverse.find? (fun it => it.issue_number == n) with
  | some it => strLower it.status
  | none => ""

/-- `ready_issues = {item.issue_number for item in items if item.status.lower() == trigger}`. -/
def ready_issues (trig : String) (items : List ProjectItem) : Finset Nat :=
  ((items.filter (fun it => strLower it.status == trig)).map
    (fun it => it.issue_number)).toFinset

/-- The `_left_ready` set after the marking loop: every seen issue whose
current status is non-empty and differs from the trigger label is added. -/
def left_after_mark (trig : String) (st : PollerState) (items : List ProjectItem) : Finset Nat :=
  st.left_ready ∪ st.seen_issues.filter
    (fun n => status_by_issue items n ≠ "" ∧ status_by_issue items n ≠ trig)

/-- `recycled = self._left_ready & ready_issues` (computed on the marked set). -/
def roundtrip_recycled (trig : String) (st : PollerState) (items : List ProjectItem) : Finset Nat :=
  left_after_mark trig st items ∩ ready_issues trig items

/-- `_seen_issues` after the round-trip recycle removal. -/
def seen_after_roundtrip (trig : String) (st : PollerState) (items : List ProjectItem) : Finset Nat :=
  st.seen_issues \ roundtrip_recycled trig st items

/-- `_left_ready` after the round-trip recycle removal. -/
def left_after_roundtrip (trig : String) (st : PollerState) (items : List ProjectItem) : Finset Nat :=
  left_after_mark trig st items \ roundtrip_recycled trig st items

/-- `redis_recycled = retry_issues & self._seen_issues & ready_issues`,
where `self._seen_issues` has already had the round-trip recycles removed. -/
def redis_recycled (trig : String) (st : PollerState) (items : List ProjectItem)
    (retry : Finset Nat) : Finset Nat :=
  retry ∩ seen_after_roundtrip trig st items ∩ ready_issues trig items

/-- `_seen_issues` as seen by the dispatch loop of the tick. -/
def seen_pre_dispatch (trig : String) (st : PollerState) (items : List ProjectItem)
    (retry : Finset Nat) : Finset Nat :=
  seen_after_roundtrip trig st items \ redis_recycled trig st items retry

/-- `_left_ready` as left by the recycle phases of the tick. -/
def left_pre_dispatch (trig : String) (st : PollerState) (items : List ProjectItem)
    (retry : Finset Nat) : Finset Nat :=
  left_after_roundtrip trig st items \ redis_recycled trig st items retry

/-- The dispatch loop at the end of `_poll`: the first item in board order
whose status matches the trigger label and whose issue is not in
`_seen_issues`; the loop breaks after one. -/
def first_eligible (trig : String) (items : List ProjectItem) (seen : Finset Nat) :
    Option ProjectItem :=
  items.find? (fun it => strLower it.status == trig && !(decide (it.issue_number ∈ seen)))

/-- Result of one `_poll` call: the new poller state, the Redis retry set
after consumed signals were removed (`srem`), and the item passed to the
`on_trigger` callback, if any. -/
structure TickResult where
  state : PollerState
  retry : Finset Nat
  dispatched : Option ProjectItem
deriving DecidableEq

/-- One `GitHubPoller._poll` tick.  `items` is the board snapshot returned
by `get_items`, `retry` the contents of the Redis `sambot:retry_issues`
set at this tick. -/
def poll (trig : String) (st : PollerState) (items : List ProjectItem)
    (retry : Finset Nat) : TickResult :=
  { state :=
      { seen_issues :=
          match first_eligible trig items (seen_pre_dispatch trig st items retry) with
          | some it => insert it.issue_number (seen_pre_dispatch trig st items retry)
          | none => seen_pre_dispatch trig st items retry,
        left_ready := left_pre_dispatch trig st items retry },
    retry := retry \ redis_recycled trig st items retry,
    dispatched := first_eligible trig items (seen_pre_dispatch trig st items retry) }

/-- The external input consumed by one tick: the board snapshot and the
Redis retry-set contents at that moment. -/
structure TickInput where
  items : List ProjectItem
  retry : Finset Nat

/-- Run a sequence of poller ticks, collecting the issue numbers handed to
the dispatch callback. -/
def run_poller (trig : String) : PollerState → List TickInput → PollerState × List Nat
  | st, [] => (st, [])
  | st, t :: ts =>
    let r := poll trig st t.items t.retry
    let rest := run_poller trig r.state ts
    (rest.1, (r.dispatched.map (fun it => it.issue_number)).toList ++ rest.2)

/-! ## Approval scan (`GitHubPoller._poll_pr_approvals`) and the `start` loop -/

/-- An open pull request together with the states of its reviews, as seen
by `_poll_pr_approvals`. -/
structure ReviewedPR where
  number : Nat
  reviews : List String
deriving DecidableEq

/-- One step of the approval scan: skip PRs already in
`_seen_approved_prs`; on the first `"APPROVED"` review, record the PR and
fire the `on_pr_approved` callback (the inner loop breaks after firing). -/
def approvals_step (acc : Finset Nat × List Nat) (pr : ReviewedPR) : Finset Nat × List Nat :=
  if pr.number ∈ acc.1 then acc
  else if pr.reviews.contains "APPROVED" then (insert pr.number acc.1, acc.2 ++ [pr.number])
  else acc

/-- `GitHubPoller._poll_pr_approvals`: returns the new `_seen_approved_prs`
set and the PR numbers for which the merge callback fired this tick. -/
def poll_pr_approvals (seen_approved : Finset Nat) (prs : List ReviewedPR) :
    Finset Nat × List Nat :=
  prs.foldl approvals_step (seen_approved, [])

/-- One iteration of the `GitHubPoller.start` loop: it always runs
`_poll` **and then** `_poll_pr_approvals` before sleeping (each wrapped in
its own try/except). -/
def start_iteration (trig : String) (st : PollerState) (seen_approved : Finset Nat)
    (items : List ProjectItem) (retry : Finset Nat) (prs : List ReviewedPR) :
    TickResult × Finset Nat × List Nat :=
  (poll trig st items retry, poll_pr_approvals seen_approved prs)

/-! ## Ledger model (src/sambot/models.py) -/

/-- `JobStatus` from src/sambot/models.py. -/
inductive JobStatus where
  | pending
  | running
  | asking
  | success
  | failed
  | cancelled
deriving DecidableEq, BEq

/-- A `StoryJob` Ledger row (src/sambot/models.py).  The three timestamp
columns are abstracted: `completed` records whether `completed_at` was
set. -/
structure StoryJob where
  id : Nat
  issue_number : Nat
  issue_title : String
  branch_name : String
  pr_number : Option Nat
  status : JobStatus
  agent_output : String
  files_changed : String
  passes_used : Nat
  error_message : String
  completed : Bool
deriving DecidableEq

/-- `_reset_failed_job_records` (src/sambot/main.py): at startup every
Ledger row with status `failed` has its status rewritten to `cancelled`. -/
def reset_failed_job_records (db : List StoryJob) : List StoryJob :=
  db.map (fun j =>
    if j.status = JobStatus.failed then { j with status := JobStatus.cancelled } else j)

/-! ## Pipeline model (src/sambot/jobs/worker.py, `process_story`) -/

def MAX_RETRIES : Nat := 3

/-- The `past_failures` query in `process_story`: all Ledger rows for this
issue with status `failed`. -/
def past_failures (db : List StoryJob) (issue : Nat) : List StoryJob :=
  db.filter (fun j => j.issue_number == issue && j.status == JobStatus.failed)

/-- The primary key the database hands to a freshly inserted row (strictly
greater than every existing id). -/
def next_job_id (db : List StoryJob) : Nat :=
  (db.map (fun j => j.id)).foldr max 0 + 1

/-- `StoryJob(issue_number=..., issue_title="", status=JobStatus.RUNNING)`
with the model defaults of the other columns. -/
def new_running_job (jid issue : Nat) : StoryJob :=
  { id := jid, issue_number := issue, issue_title := "", branch_name := "",
    pr_number := none, status := JobStatus.running, agent_output := "",
    files_changed := "", passes_used := 0, error_message := "", completed := false }

/-- `session.get(StoryJob, job_id)` followed by field updates and commit. -/
def update_job (db : List StoryJob) (jid : Nat) (f : StoryJob → StoryJob) : List StoryJob :=
  db.map (fun j => if j.id = jid then f j else j)

/-- `",".join(result.files_changed)`. -/
def join_files (files : List String) : String := String.intercalate "," files

/-- `AgentResult` (src/sambot/agent/loop.py), restricted to the fields the
pipeline reads. -/
structure AgentResult where
  success : Bool
  passes_used : Nat
  files_changed : List String
  test_output : String
  error : String
deriving DecidableEq

/-- How the `try` body of `process_story` unfolds after the running Job row
was created.  Any unhandled exception inside the `try` is caught by the
single `except` clause, but what that clause can do depends on *where*
the exception was raised: `import asyncio` and the `_move_status` helper
are local names bound inside the `try` (worker.py lines 400 and 408), so
for an exception raised before the helper is bound — during client/LLM/
Slack initialization, `get_issue`, the title-update write, the progress
posts or the `ProjectsClient` construction — the rollback call
`asyncio.run(_move_status("Ready"))` itself raises `UnboundLocalError`,
which the nested `except` swallows: no board move and no Redis `sadd`
happen.  `crashBeforeMoveBound` covers that class (`title_set` records
whether the title-update write completed first); `crashBeforeBranch`
covers exceptions from the In-progress move up to branch creation,
`crashAfterBranch` / `crashAfterAgent` later ones, all with the helper
bound so the rollback runs. -/
inductive RunEvent where
  | crashBeforeMoveBound (title_set : Bool) (msg : String)
  | crashBeforeBranch (msg : String)
  | crashAfterBranch (msg : String)
  | crashAfterAgent (msg : String)
  | finished (result : AgentResult)
deriving DecidableEq

/-- The exception text carried by a crashing run, if any. -/
def crash_msg : RunEvent → Option String
  | RunEvent.crashBeforeMoveBound _ m => some m
  | RunEvent.crashBeforeBranch m => some m
  | RunEvent.crashAfterBranch m => some m
  | RunEvent.crashAfterAgent m => some m
  | RunEvent.finished _ => none

/-- The exception text of a crash raised at a point where `asyncio` and
the `_move_status` helper are already bound, so the except-clause
rollback (Ready move + Redis `sadd`) actually runs. -/
def rollback_crash_msg : RunEvent → Option String
  | RunEvent.crashBeforeBranch m => some m
  | RunEvent.crashAfterBranch m => some m
  | RunEvent.crashAfterAgent m => some m
  | _ => none

/-- Everything observable `process_story` did: the Ledger contents, the
board status updates requested for this issue (in order), whether the
issue number was `sadd`-ed to the Redis retry set, whether a feature
branch was created, whether `AgentLoop.run` was invoked, the PR created,
whether a comment was posted on the issue, and the returned dict. -/
structure ProcessOutcome where
  db : List StoryJob
  board_moves : List String
  retry_signal : Bool
  branch_created : Bool
  agent_invoked : Bool
  pr_created : Option Nat
  comment_posted : Bool
  result_status : String
  result_error : Option String
deriving DecidableEq

/-- Seal a Job row the way the `except` clause does: status `failed`,
`error_message` the exception text, `completed_at` set. -/
def seal_crash (db : List StoryJob) (jid : Nat) (msg : String) : List StoryJob :=
  update_job db jid (fun j =>
    { j with status := JobStatus.failed, error_message := msg, completed := true })

/-- `process_story` (src/sambot/jobs/worker.py).  `title` is the issue
title fetched from GitHub, `branch` the branch name computed by
`create_branch_name`, `pr` the number GitHub assigns when a PR is
created; `ev` tells how the `try` body unfolds. -/
def process_story (db : List StoryJob) (issue : Nat) (title branch : String)
    (pr : Nat) (ev : RunEvent) : ProcessOutcome :=
  if MAX_RETRIES ≤ (past_failures db issue).length then
    { db := db, board_moves := ["Blocked"], retry_signal := false,
      branch_created := false, agent_invoked := false, pr_created := none,
      comment_posted := true, result_status := "blocked",
      result_error := some "Exceeded max retries (3)" }
  else
    let jid := next_job_id db
    let db1 := db ++ [new_running_job jid issue]
    match ev with
    | RunEvent.crashBeforeMoveBound title_set msg =>
      { db := seal_crash
          (if title_set then update_job db1 jid (fun j => { j with issue_title := title })
           else db1) jid msg,
        board_moves := [], retry_signal := false,
        branch_created := false, agent_invoked := false, pr_created := none,
        comment_posted := false, result_status := "error", result_error := some msg }
    | RunEvent.crashBeforeBranch msg =>
      { db := seal_crash (update_job db1 jid (fun j => { j with issue_title := title })) jid msg,
        board_moves := ["In progress", "Ready"], retry_signal := true,
        branch_created := false, agent_invoked := false, pr_created := none,
        comment_posted := false, result_status := "error", result_error := some msg }
    | RunEvent.crashAfterBranch msg =>
      { db := seal_crash (update_job db1 jid (fun j => { j with issue_title := title })) jid msg,
        board_moves := ["In progress", "Ready"], retry_signal := true,
        branch_created := true, agent_invoked := false, pr_created := none,
        comment_posted := false, result_status := "error", result_error := some msg }
    | RunEvent.crashAfterAgent msg =>
      { db := seal_crash (update_job db1 jid (fun j => { j with issue_title := title })) jid msg,
        board_moves := ["In progress", "Ready"], retry_signal := true,
        branch_created := true, agent_invoked := true, pr_created := none,
        comment_posted := false, result_status := "error", result_error := some msg }
    | RunEvent.finished result =>
      let db2 := update_job db1 jid (fun j => { j with issue_title := title })
      if result.success then
        { db := update_job db2 jid (fun j =>
            { j with
                status := JobStatus.success, pr_number := some pr,
                branch_name := branch, files_changed := join_files result.files_changed,
                passes_used := result.passes_used, completed := true }),
          board_moves := ["In progress", "In review"], retry_signal := false,
          branch_created := true, agent_invoked := true, pr_created := some pr,
          comment_posted := false, result_status := "success", result_error := none }
      else
        { db := update_job db2 jid (fun j =>
            { j with
                status := JobStatus.failed, error_message := result.error,
                passes_used := result.passes_used,
                files_changed := join_files result.files_changed, completed := true }),
          board_moves := ["In progress", "Blocked"], retry_signal := false,
          branch_created := true, agent_invoked := true, pr_created := none,
          comment_posted := true, result_status := "blocked",
          result_error := some result.error }

/-! ## `_commit_and_push` (src/sambot/jobs/worker.py) -/

/-- The git side effects of `_commit_and_push`. -/
structure GitEffects where
  committed : Bool
  pushed : Bool
deriving DecidableEq

/-- The tuple `("develop", "main", "master")` guarding the push. -/
def protected_branch_names : List String := ["develop", "main", "master"]

/-- `_commit_and_push`: stage everything; if nothing is staged, return
`True` without committing or pushing; otherwise commit, then raise
`ValueError` if the branch name is protected (before any push), else
push.  The first component records what git commands ran; the second is
the Python return value or the raised error. -/
def commit_and_push (branch_name : String) (has_staged_changes : Bool) :
    GitEffects × Except String Bool :=
  if has_staged_changes = false then
    ({ committed := false, pushed := false }, Except.ok true)
  else if protected_branch_names.contains (strLower branch_name) then
    ({ committed := true, pushed := false },
      Except.error ("Refusing to push to protected branch: " ++ branch_name))
  else
    ({ committed := true, pushed := true }, Except.ok true)

/-! ## Merge pipeline (src/sambot/github/pr.py, `PRManager.rebase_merge`) -/

/-- The PR data `rebase_merge` reads: number, head/base refs, and the
states of its reviews. -/
structure PullReqInfo where
  number : Nat
  head_ref : String
  base_ref : String
  reviews : List String
deriving DecidableEq

/-- Whether a `pr.merge(merge_method="rebase")` API call succeeds or
raises. -/
inductive ApiMergeResult where
  | ok
  | fail (msg : String)
deriving DecidableEq

/-- How the git commands of `_local_rebase_merge` unfold: the rebase hits
a conflict (non-zero exit), or it is clean and the retried API merge
gives the stated result, or some git command raises. -/
inductive LocalRebaseRun where
  | conflict (stderr : String)
  | clean (second_merge : ApiMergeResult)
  | gitError (msg : String)
deriving DecidableEq

/-- The dict returned by `rebase_merge` plus a count of how many times the
native `pr.merge` operation was invoked. -/
structure MergeOutcome where
  success : Bool
  complex : Bool
  message : String
  native_merge_calls : Nat
deriving DecidableEq

/-- `PRManager._local_rebase_merge`. -/
def local_rebase_merge (pr : PullReqInfo) (loc : LocalRebaseRun) : MergeOutcome :=
  match loc with
  | LocalRebaseRun.conflict stderr =>
    { success := false, complex := true,
      message := "PR #" ++ toString pr.number ++ " rebase has conflicts. Output: "
        ++ stderr.take 500,
      native_merge_calls := 0 }
  | LocalRebaseRun.clean ApiMergeResult.ok =>
    { success := true, complex := true,
      message := "PR #" ++ toString pr.number
        ++ " required local rebase but merged successfully into " ++ pr.base_ref ++ ".",
      native_merge_calls := 1 }
  | LocalRebaseRun.clean (ApiMergeResult.fail msg) =>
    { success := false, complex := true,
      message := "PR #" ++ toString pr.number ++ " local rebase failed: " ++ msg,
      native_merge_calls := 1 }
  | LocalRebaseRun.gitError msg =>
    { success := false, complex := true,
      message := "PR #" ++ toString pr.number ++ " local rebase failed: " ++ msg,
      native_merge_calls := 0 }

/-- `PRManager.rebase_merge`: approval check, protected-base check, native
rebase merge, local-rebase fallback when a work dir exists. -/
def rebase_merge (pr : PullReqInfo) (api : ApiMergeResult) (work_dir_exists : Bool)
    (loc : LocalRebaseRun) : MergeOutcome :=
  if ¬ pr.reviews.contains "APPROVED" then
    { success := false, complex := false,
      message := "PR #" ++ toString pr.number ++ " is not approved yet.",
      native_merge_calls := 0 }
  else if strLower pr.base_ref = "main" ∨ strLower pr.base_ref = "master" then
    { success := false, complex := false,
      message := "Cannot merge into protected branch '" ++ pr.base_ref ++ "'.",
      native_merge_calls := 0 }
  else
    match api with
    | ApiMergeResult.ok =>
      { success := true, complex := false,
        message := "PR #" ++ toString pr.number ++ " successfully rebased and merged into "
          ++ pr.base_ref ++ ".",
        native_merge_calls := 1 }
    | ApiMergeResult.fail msg =>
      if work_dir_exists then
        let r := local_rebase_merge pr loc
        { r with native_merge_calls := r.native_merge_calls + 1 }
      else
        { success := false, complex := true,
          message := "PR #" ++ toString pr.number
            ++ " has conflicts that need manual resolution. Rebase merge failed: " ++ msg,
          native_merge_calls := 1 }

/-! ## RecoveryScan (src/sambot/main.py, `_recover_interrupted_jobs`) -/

/-- An RQ job entry: function name and positional arguments. -/
structure QueueJob where
  func_name : String
  args : List Nat
deriving DecidableEq

def process_story_func : String := "sambot.jobs.worker.process_story"

/-- Issue numbers with an active (queued or started) `process_story` job:
entries whose `func_name` matches and whose `args` is non-empty contribute
`args[0]`. -/
def active_issues (jobs : List QueueJob) : Finset Nat :=
  ((jobs.filter (fun j => j.func_name == process_story_func && !j.args.isEmpty)).filterMap
    (fun j => j.args.head?)).toFinset

/-- `_recover_interrupted_jobs`: the board items moved back to `"Ready"` —
those whose status is (case-insensitively) `"in progress"` and whose issue
number has no active job in the queued or started listings. -/
def recover_interrupted_jobs (items : List ProjectItem) (queued started : List QueueJob) :
    List ProjectItem :=
  (items.filter (fun it => strLower it.status == "in progress")).filter
    (fun it => !(decide (it.issue_number ∈ active_issues (queued ++ started))))

/-! ## Concrete fixtures used by witnesses and counterexamples -/

/-- A board snapshot with the single issue 7 in `Ready`. -/
def readyItem7 : ProjectItem := ⟨7, "Ready", "story"⟩

/-- A tick observing issue 7 in `Ready` with an empty Redis retry set. -/
def readyTick7 : TickInput := ⟨[readyItem7], ∅⟩

/-- A tick observing issue 7 in `In progress`. -/
def inProgressTick7 : TickInput := ⟨[⟨7, "In progress", "story"⟩], ∅⟩

/-- A Ledger row recorded as `failed`. -/
def failedJob7 : StoryJob :=
  { id := 1, issue_number := 7, issue_title := "story", branch_name := "",
    pr_number := none, status := JobStatus.failed, agent_output := "",
    files_changed := "", passes_used := 1, error_message := "tests failed",
    completed := true }

/-- Three failed Ledger rows for issue 7 (ids 1–3). -/
def threeFailures7 : List StoryJob :=
  [failedJob7, { failedJob7 with id := 2 }, { failedJob7 with id := 3 }]

/-- An in-progress board item with no live job. -/
def orphanItem9 : ProjectItem := ⟨9, "In progress", "orphan"⟩

/-- An in-progress board item whose issue has a live job. -/
def busyItem8 : ProjectItem := ⟨8, "In progress", "busy"⟩

/-- A started `process_story` job for issue 8. -/
def liveJob8 : QueueJob := ⟨process_story_func, [8]⟩

/-! # Theorems -/

example :
    (run_poller "ready" ⟨∅, ∅⟩
      [⟨[⟨7, "Ready", "a"⟩, ⟨8, "Ready", "b"⟩], ∅⟩,
       ⟨[⟨7, "Ready", "a"⟩, ⟨8, "Ready", "b"⟩], ∅⟩,
       ⟨[⟨7, "Ready", "a"⟩, ⟨8, "Ready", "b"⟩], ∅⟩]).2 = [7, 8] := by decide

/-! ## Poller lemmas -/

lemma mem_ready_issues {trig : String} {items : List ProjectItem} {n : Nat} :
    n ∈ ready_issues trig items ↔
      ∃ it ∈ items, it.issue_number = n ∧ strLower it.status = trig := by
  simp only [ready_issues, List.mem_toFinset, List.mem_map, List.mem_filter, beq_iff_eq]
  constructor
  · rintro ⟨it, ⟨hm, hs⟩, hn⟩
    exact ⟨it, hm, hn, hs⟩
  · rintro ⟨it, hm, hn, hs⟩
    exact ⟨it, ⟨hm, hs⟩, hn⟩

lemma status_mem_ready {trig : String} {items : List ProjectItem} {n : Nat}
    (h : status_by_issue items n = trig) (h0 : trig ≠ "") :
    n ∈ ready_issues trig items := by
  unfold status_by_issue at h
  rcases hfind : items.reverse.find? (fun it => it.issue_number == n) with _ | it
  · rw [hfind] at h
    exact absurd h.symm h0
  · rw [hfind] at h
    have hmem : it ∈ items := List.mem_reverse.mp (List.mem_of_find?_eq_some hfind)
    have hpred : it.issue_number = n := by
      have := List.find?_some hfind
      simpa using this
    exact mem_ready_issues.mpr ⟨it, hmem, hpred, h⟩

lemma mem_left_after_mark {trig : String} {st : PollerState} {items : List ProjectItem} {n : Nat} :
    n ∈ left_after_mark trig st items ↔
      n ∈ st.left_ready ∨
        (n ∈ st.seen_issues ∧ status_by_issue items n ≠ "" ∧ status_by_issue items n ≠ trig) := by
  simp [left_after_mark, Finset.mem_union, Finset.mem_filter]

lemma first_eligible_spec {trig : String} {items : List ProjectItem} {seen : Finset Nat}
    {it : ProjectItem} (h : first_eligible trig items seen = some it) :
    it ∈ items ∧ strLower it.status = trig ∧ it.issue_number ∉ seen := by
  have hmem := List.mem_of_find?_eq_some h
  have hpred := List.find?_some h
  rw [Bool.and_eq_true] at hpred
  refine ⟨hmem, beq_iff_eq.mp hpred.1, ?_⟩
  have := hpred.2
  simp only [Bool.not_eq_true', decide_eq_false_iff_not] at this
  exact this

lemma poll_dispatched_eq (trig : String) (st : PollerState) (items : List ProjectItem)
    (retry : Finset Nat) :
    (poll trig st items retry).dispatched =
      first_eligible trig items (seen_pre_dispatch trig st items retry) := rfl

lemma poll_retry_eq (trig : String) (st : PollerState) (items : List ProjectItem)
    (retry : Finset Nat) :
    (poll trig st items retry).retry = retry \ redis_recycled trig st items retry := rfl

lemma poll_state_left (trig : String) (st : PollerState) (items : List ProjectItem)
    (retry : Finset Nat) :
    (poll trig st items retry).state.left_ready = left_pre_dispatch trig st items retry := rfl

lemma seen_pre_subset_poll_seen (trig : String) (st : PollerState) (items : List ProjectItem)
    (retry : Finset Nat) :
    seen_pre_dispatch trig st items retry ⊆ (poll trig st items retry).state.seen_issues := by
  intro a ha
  show a ∈ (match first_eligible trig items (seen_pre_dispatch trig st items retry) with
    | some it => insert it.issue_number (seen_pre_dispatch trig st items retry)
    | none => seen_pre_dispatch trig st items retry)
  rcases first_eligible trig items (seen_pre_dispatch trig st items retry) with _ | it
  · exact ha
  · exact Finset.mem_insert_of_mem ha

lemma poll_seen_pre (trig : String) (st : PollerState) (items : List ProjectItem)
    (retry : Finset Nat) (n : Nat)
    (hstat : status_by_issue items n = trig) (hretry : n ∉ retry)
    (hseen : n ∈ st.seen_issues) (hleft : n ∉ st.left_ready) :
    n ∈ seen_pre_dispatch trig st items retry ∧
      n ∉ left_pre_dispatch trig st items retry := by
  have hmark : n ∉ left_after_mark trig st items := by
    rw [mem_left_after_mark]
    rintro (h | ⟨-, -, h⟩)
    · exact hleft h
    · exact h hstat
  have hrt : n ∉ roundtrip_recycled trig st items := fun h =>
    hmark (Finset.mem_inter.mp h).1
  have hsar : n ∈ seen_after_roundtrip trig st items :=
    Finset.mem_sdiff.mpr ⟨hseen, hrt⟩
  have hredis : n ∉ redis_recycled trig st items retry := fun h =>
    hretry (Finset.mem_inter.mp (Finset.mem_inter.mp h).1).1
  refine ⟨Finset.mem_sdiff.mpr ⟨hsar, hredis⟩, fun h => ?_⟩
  exact hmark (Finset.mem_sdiff.mp (Finset.mem_sdiff.mp h).1).1

lemma poll_seen_persist (trig : String) (st : PollerState) (items : List ProjectItem)
    (retry : Finset Nat) (n : Nat)
    (hstat : status_by_issue items n = trig) (hretry : n ∉ retry)
    (hseen : n ∈ st.seen_issues) (hleft : n ∉ st.left_ready) :
    n ∈ (poll trig st items retry).state.seen_issues ∧
    n ∉ (poll trig st items retry).state.left_ready ∧
    ∀ it, (poll trig st items retry).dispatched = some it → it.issue_number ≠ n := by
  obtain ⟨hpre, hlpre⟩ := poll_seen_pre trig st items retry n hstat hretry hseen hleft
  refine ⟨seen_pre_subset_poll_seen trig st items retry hpre, ?_, ?_⟩
  · rw [poll_state_left]
    exact hlpre
  · intro it hit hn
    rw [poll_dispatched_eq] at hit
    exact (first_eligible_spec hit).2.2 (hn ▸ hpre)

lemma poll_dispatch_establish {trig : String} {st : PollerState} {items : List ProjectItem}
    {retry : Finset Nat} {it : ProjectItem}
    (hd : (poll trig st items retry).dispatched = some it) :
    it.issue_number ∈ (poll trig st items retry).state.seen_issues ∧
    it.issue_number ∉ (poll trig st items retry).state.left_ready := by
  rw [poll_dispatched_eq] at hd
  have hspec := first_eligible_spec hd
  have hready : it.issue_number ∈ ready_issues trig items :=
    mem_ready_issues.mpr ⟨it, hspec.1, rfl, hspec.2.1⟩
  have hlpre : it.issue_number ∉ left_pre_dispatch trig st items retry := by
    intro h
    have h1 := Finset.mem_sdiff.mp h
    have h2 := Finset.mem_sdiff.mp h1.1
    exact h2.2 (Finset.mem_inter.mpr ⟨h2.1, hready⟩)
  constructor
  · show it.issue_number ∈
      (match first_eligible trig items (seen_pre_dispatch trig st items retry) with
        | some it => insert it.issue_number (seen_pre_dispatch trig st items retry)
        | none => seen_pre_dispatch trig st items retry)
    rw [hd]
    exact Finset.mem_insert_self _ _
  · rw [poll_state_left]
    exact hlpre

lemma run_poller_append (trig : String) (st : PollerState) (pre post : List TickInput) :
    run_poller trig st (pre ++ post) =
      ((run_poller trig (run_poller trig st pre).1 post).1,
       (run_poller trig st pre).2 ++ (run_poller trig (run_poller trig st pre).1 post).2) := by
  induction pre generalizing st with
  | nil => simp [run_poller]
  | cons t ts ih =>
    simp only [List.cons_append, run_poller]
    simp only [List.append_eq]
    rw [ih]
    simp [List.append_assoc]

lemma run_poller_inv {trig : String} {n : Nat} (ts : List TickInput) (st : PollerState)
    (h : ∀ t ∈ ts, status_by_issue t.items n = trig ∧ n ∉ t.retry)
    (hseen : n ∈ st.seen_issues) (hleft : n ∉ st.left_ready) :
    n ∈ (run_poller trig st ts).1.seen_issues ∧
    n ∉ (run_poller trig st ts).1.left_ready ∧
    (run_poller trig st ts).2.count n = 0 := by
  induction ts generalizing st with
  | nil => exact ⟨hseen, hleft, rfl⟩
  | cons t ts ih =>
    obtain ⟨hstat, hretry⟩ := h t (List.mem_cons_self t ts)
    obtain ⟨h1, h2, h3⟩ := poll_seen_persist trig st t.items t.retry n hstat hretry hseen hleft
    obtain ⟨ih1, ih2, ih3⟩ := ih (poll trig st t.items t.retry).state
      (fun u hu => h u (List.mem_cons_of_mem t hu)) h1 h2
    refine ⟨ih1, ih2, ?_⟩
    simp only [run_poller, List.count_append, ih3, Nat.add_zero]
    rcases hd : (poll trig st t.items t.retry).dispatched with _ | it
    · simp
    · have : it.issue_number ≠ n := h3 it hd
      simp [hd, List.count_cons, this]

lemma run_poller_count_le_one {trig : String} {n : Nat} (ts : List TickInput) (st : PollerState)
    (h : ∀ t ∈ ts, status_by_issue t.items n = trig ∧ n ∉ t.retry) :
    (run_poller trig st ts).2.count n ≤ 1 ∧
    ((run_poller trig st ts).2.count n ≠ 0 →
      n ∈ (run_poller trig st ts).1.seen_issues ∧ n ∉ (run_poller trig st ts).1.left_ready) := by
  induction ts generalizing st with
  | nil => exact ⟨Nat.zero_le 1, fun hc => absurd rfl hc⟩
  | cons t ts ih =>
    obtain ⟨hstat, hretry⟩ := h t (List.mem_cons_self t ts)
    by_cases hdisp : ∃ it, (poll trig st t.items t.retry).dispatched = some it ∧
        it.issue_number = n
    · obtain ⟨it, hd, hn⟩ := hdisp
      have hinv := poll_dispatch_establish hd
      rw [hn] at hinv
      obtain ⟨r1, r2, r3⟩ := run_poller_inv ts (poll trig st t.items t.retry).state
        (fun u hu => h u (List.mem_cons_of_mem t hu)) hinv.1 hinv.2
      have hcount : (run_poller trig st (t :: ts)).2.count n = 1 := by
        simp [run_poller, List.count_append, r3, hd, List.count_cons, hn]
      rw [hcount]
      refine ⟨le_refl 1, fun _ => ?_⟩
      have : (run_poller trig st (t :: ts)).1 = (run_poller trig
          (poll trig st t.items t.retry).state ts).1 := by
        simp [run_poller]
      rw [this]
      exact ⟨r1, r2⟩
    · have hheadcount : ((poll trig st t.items t.retry).dispatched.map
          (fun it => it.issue_number)).toList.count n = 0 := by
        rcases hd : (poll trig st t.items t.retry).dispatched with _ | it
        · simp
        · have : it.issue_number ≠ n := fun hn => hdisp ⟨it, hd, hn⟩
          simp [List.count_cons, this]
      obtain ⟨ih1, ih2⟩ := ih (poll trig st t.items t.retry).state
        (fun u hu => h u (List.mem_cons_of_mem t hu))
      constructor
      · simpa [run_poller, List.count_append, hheadcount] using ih1
      · intro hc
        have hc' : (run_poller trig (poll trig st t.items t.retry).state ts).2.count n ≠ 0 := by
          intro h0
          apply hc
          simp [run_poller, List.count_append, hheadcount, h0]
        have hfin : (run_poller trig st (t :: ts)).1 = (run_poller trig
            (poll trig st t.items t.retry).state ts).1 := by
          simp [run_poller]
        rw [hfin]
        exact ih2 hc'

/-- **C1**: over any tick sequence in which issue `n` keeps the trigger
status (`status_by_issue = trig` at every tick) and carries no Redis
recycle signal (`n ∉ retry` at every tick, so none is consumed), the
dispatch callback fires for `n` at most once; and on any tick where the
dispatch loop selects an item carrying `n` — i.e. `n` is the first
eligible item in board order — it fires exactly once over the whole
sequence. -/
theorem trigger_dispatch_exactly_once (trig : String) (st : PollerState)
    (ticks : List TickInput) (n : Nat)
    (h : ∀ t ∈ ticks, status_by_issue t.items n = trig ∧ n ∉ t.retry) :
    (run_poller trig st ticks).2.count n ≤ 1 ∧
    (∀ pre t post it, ticks = pre ++ t :: post →
      (poll trig (run_poller trig st pre).1 t.items t.retry).dispatched = some it →
      it.issue_number = n →
      (run_poller trig st ticks).2.count n = 1) := by
  refine ⟨(run_poller_count_le_one ticks st h).1, ?_⟩
  rintro pre t post it rfl hd hn
  have hpre : ∀ u ∈ pre, status_by_issue u.items n = trig ∧ n ∉ u.retry :=
    fun u hu => h u (List.mem_append_left _ hu)
  have ht : status_by_issue t.items n = trig ∧ n ∉ t.retry :=
    h t (List.mem_append_right _ (List.mem_cons_self t post))
  have hpost : ∀ u ∈ post, status_by_issue u.items n = trig ∧ n ∉ u.retry :=
    fun u hu => h u (List.mem_append_right _ (List.mem_cons_of_mem t hu))
  -- the dispatch in the middle establishes the invariant for the suffix
  have hinv := poll_dispatch_establish hd
  rw [hn] at hinv
  obtain ⟨-, -, hcpost⟩ := run_poller_inv post _ hpost hinv.1 hinv.2
  -- n cannot have been dispatched during the prefix
  have hcpre : (run_poller trig st pre).2.count n = 0 := by
    by_contra hc
    obtain ⟨hs, hl⟩ := (run_poller_count_le_one pre st hpre).2 hc
    obtain ⟨hs1, -⟩ := poll_seen_pre trig (run_poller trig st pre).1 t.items t.retry n ht.1 ht.2 hs hl
    rw [poll_dispatched_eq] at hd
    exact (first_eligible_spec hd).2.2 (hn ▸ hs1)
  rw [run_poller_append]
  simp only [List.count_append, hcpre, Nat.zero_add]
  simp [run_poller, List.count_append, hcpost, hd, List.count_cons, hn]

/-! ## Round-trip recycling lemmas -/

lemma poll_congr_retry {trig : String} {st : PollerState} {items : List ProjectItem}
    {r1 r2 : Finset Nat}
    (hred : redis_recycled trig st items r1 = redis_recycled trig st items r2) :
    (poll trig st items r1).state = (poll trig st items r2).state ∧
    (poll trig st items r1).dispatched = (poll trig st items r2).dispatched := by
  have hsp : seen_pre_dispatch trig st items r1 = seen_pre_dispatch trig st items r2 := by
    unfold seen_pre_dispatch
    rw [hred]
  have hlp : left_pre_dispatch trig st items r1 = left_pre_dispatch trig st items r2 := by
    unfold left_pre_dispatch
    rw [hred]
  constructor
  · simp only [poll]
    rw [hsp, hlp]
  · rw [poll_dispatched_eq, poll_dispatched_eq, hsp]

lemma poll_mark_persist_aux (trig : String) (st : PollerState) (items : List ProjectItem)
    (retry : Finset Nat) (n : Nat)
    (hseen : n ∈ st.seen_issues)
    (hmark : n ∈ left_after_mark trig st items)
    (hready : n ∉ ready_issues trig items) :
    n ∈ (poll trig st items retry).state.seen_issues ∧
    n ∈ (poll trig st items retry).state.left_ready := by
  have hrt : n ∉ roundtrip_recycled trig st items := fun h =>
    hready (Finset.mem_inter.mp h).2
  have hredis : n ∉ redis_recycled trig st items retry := fun h =>
    hready (Finset.mem_inter.mp h).2
  have hsp : n ∈ seen_pre_dispatch trig st items retry :=
    Finset.mem_sdiff.mpr ⟨Finset.mem_sdiff.mpr ⟨hseen, hrt⟩, hredis⟩
  refine ⟨seen_pre_subset_poll_seen trig st items retry hsp, ?_⟩
  rw [poll_state_left]
  exact Finset.mem_sdiff.mpr ⟨Finset.mem_sdiff.mpr ⟨hmark, hrt⟩, hredis⟩

lemma poll_leave_mark (trig : String) (st : PollerState) (items : List ProjectItem)
    (retry : Finset Nat) (n : Nat)
    (hseen : n ∈ st.seen_issues)
    (hpresent : status_by_issue items n ≠ "")
    (hdiff : status_by_issue items n ≠ trig)
    (hready : n ∉ ready_issues trig items) :
    n ∈ (poll trig st items retry).state.seen_issues ∧
    n ∈ (poll trig st items retry).state.left_ready :=
  poll_mark_persist_aux trig st items retry n hseen
    (mem_left_after_mark.mpr (Or.inr ⟨hseen, hpresent, hdiff⟩)) hready

lemma run_poller_left_inv {trig : String} {n : Nat} (ts : List TickInput) (st : PollerState)
    (h : ∀ t ∈ ts, n ∉ ready_issues trig t.items)
    (hseen : n ∈ st.seen_issues) (hleft : n ∈ st.left_ready) :
    n ∈ (run_poller trig st ts).1.seen_issues ∧ n ∈ (run_poller trig st ts).1.left_ready := by
  induction ts generalizing st with
  | nil => exact ⟨hseen, hleft⟩
  | cons t ts ih =>
    have hstep := poll_mark_persist_aux trig st t.items t.retry n hseen
      (mem_left_after_mark.mpr (Or.inl hleft)) (h t (List.mem_cons_self t ts))
    have := ih (poll trig st t.items t.retry).state
      (fun u hu => h u (List.mem_cons_of_mem t hu)) hstep.1 hstep.2
    simpa [run_poller] using this

/-- **C6**: a dispatched issue (`n ∈ seen_issues`) observed at one tick
with a present, non-trigger status (and not among the ready issues — the
board carries one item per issue), then not observed ready over any
intermediate ticks, is tracked in `left_ready` while staying in
`seen_issues`; at the first tick observing it back in the trigger status
it is removed from both sets by the round-trip recycle, and the tick
dispatches it as soon as it is the first eligible item in board order. -/
theorem roundtrip_recycle_redispatch (trig : String) (st : PollerState) (n : Nat)
    (tA : TickInput) (mids : List TickInput) (tB : TickInput)
    (htrig : trig ≠ "")
    (hseen : n ∈ st.seen_issues)
    (hAdiff : status_by_issue tA.items n ≠ trig)
    (hApresent : status_by_issue tA.items n ≠ "")
    (hAready : n ∉ ready_issues trig tA.items)
    (hmids : ∀ t ∈ mids, n ∉ ready_issues trig t.items)
    (hB : status_by_issue tB.items n = trig) :
    n ∈ (run_poller trig st (tA :: mids)).1.seen_issues ∧
    n ∈ (run_poller trig st (tA :: mids)).1.left_ready ∧
    n ∉ seen_pre_dispatch trig (run_poller trig st (tA :: mids)).1 tB.items tB.retry ∧
    n ∉ left_pre_dispatch trig (run_poller trig st (tA :: mids)).1 tB.items tB.retry ∧
    (∀ it, first_eligible trig tB.items
        (seen_pre_dispatch trig (run_poller trig st (tA :: mids)).1 tB.items tB.retry)
          = some it →
      (poll trig (run_poller trig st (tA :: mids)).1 tB.items tB.retry).dispatched = some it) := by
  have hA := poll_leave_mark trig st tA.items tA.retry n hseen hApresent hAdiff hAready
  have hrun := run_poller_left_inv mids (poll trig st tA.items tA.retry).state hmids hA.1 hA.2
  have hstep : (run_poller trig st (tA :: mids)).1 =
      (run_poller trig (poll trig st tA.items tA.retry).state mids).1 := by
    simp [run_poller]
  rw [hstep]
  obtain ⟨h1, h2⟩ := hrun
  have hready : n ∈ ready_issues trig tB.items := status_mem_ready hB htrig
  have hmark : n ∈ left_after_mark trig
      (run_poller trig (poll trig st tA.items tA.retry).state mids).1 tB.items :=
    mem_left_after_mark.mpr (Or.inl h2)
  have hrt : n ∈ roundtrip_recycled trig
      (run_poller trig (poll trig st tA.items tA.retry).state mids).1 tB.items :=
    Finset.mem_inter.mpr ⟨hmark, hready⟩
  refine ⟨h1, h2, ?_, ?_, ?_⟩
  · intro h
    exact (Finset.mem_sdiff.mp (Finset.mem_sdiff.mp h).1).2 hrt
  · intro h
    exact (Finset.mem_sdiff.mp (Finset.mem_sdiff.mp h).1).2 hrt
  · intro it hfe
    rw [poll_dispatched_eq]
    exact hfe

/-! ## Redis retry-signal consumption -/

/-- **C10**: a Redis retry signal for `n` is consumed by a tick (removed
by `srem`) only when `n` is still in the poller's seen set and currently
among the ready issues — and consumption makes `n` eligible again; when
either condition fails, the signal is left in the set and the tick's
state, dispatch and consumed signals are exactly those of the same tick
run without the signal. -/
theorem retry_signal_consumed_only_if (trig : String) (st : PollerState)
    (items : List ProjectItem) (retry : Finset Nat) (n : Nat)
    (hn : n ∈ retry) :
    (n ∉ (poll trig st items retry).retry →
      n ∈ st.seen_issues ∧ n ∈ ready_issues trig items ∧
        n ∉ seen_pre_dispatch trig st items retry) ∧
    ((n ∉ st.seen_issues ∨ n ∉ ready_issues trig items) →
      n ∈ (poll trig st items retry).retry ∧
      (poll trig st items (retry.erase n)).state = (poll trig st items retry).state ∧
      (poll trig st items (retry.erase n)).dispatched
        = (poll trig st items retry).dispatched ∧
      (poll trig st items (retry.erase n)).retry
        = (poll trig st items retry).retry.erase n) := by
  constructor
  · intro hout
    rw [poll_retry_eq] at hout
    have hred : n ∈ redis_recycled trig st items retry := by
      by_contra hcon
      exact hout (Finset.mem_sdiff.mpr ⟨hn, hcon⟩)
    have h1 := Finset.mem_inter.mp hred
    have h2 := Finset.mem_inter.mp h1.1
    refine ⟨(Finset.mem_sdiff.mp h2.2).1, h1.2, ?_⟩
    intro h
    exact (Finset.mem_sdiff.mp h).2 hred
  · intro hcond
    have hnred : ∀ m ∈ redis_recycled trig st items retry, m ≠ n := by
      intro m hm rfl'
      subst rfl'
      have h1 := Finset.mem_inter.mp hm
      have h2 := Finset.mem_inter.mp h1.1
      rcases hcond with hc | hc
      · exact hc (Finset.mem_sdiff.mp h2.2).1
      · exact hc h1.2
    have hred : redis_recycled trig st items (retry.erase n)
        = redis_recycled trig st items retry := by
      unfold redis_recycled
      ext a
      simp only [Finset.mem_inter, Finset.mem_erase]
      constructor
      · rintro ⟨⟨⟨-, ha⟩, hs⟩, hr⟩
        exact ⟨⟨ha, hs⟩, hr⟩
      · rintro ⟨⟨ha, hs⟩, hr⟩
        refine ⟨⟨⟨?_, ha⟩, hs⟩, hr⟩
        intro rfl'
        subst rfl'
        exact hnred a (Finset.mem_inter.mpr ⟨Finset.mem_inter.mpr ⟨ha, hs⟩, hr⟩) rfl
    have hsp : seen_pre_dispatch trig st items (retry.erase n)
        = seen_pre_dispatch trig st items retry := by
      unfold seen_pre_dispatch
      rw [hred]
    have hlp : left_pre_dispatch trig st items (retry.erase n)
        = left_pre_dispatch trig st items retry := by
      unfold left_pre_dispatch
      rw [hred]
    refine ⟨?_, ?_, ?_, ?_⟩
    · rw [poll_retry_eq]
      refine Finset.mem_sdiff.mpr ⟨hn, fun h => hnred n h rfl⟩
    · exact (poll_congr_retry hred).1
    · exact (poll_congr_retry hred).2
    · rw [poll_retry_eq, poll_retry_eq, hred]
      ext a
      simp only [Finset.mem_sdiff, Finset.mem_erase]
      constructor
      · rintro ⟨⟨ha, hm⟩, hr⟩
        exact ⟨ha, hm, hr⟩
      · rintro ⟨ha, hm, hr⟩
        exact ⟨⟨ha, hm⟩, hr⟩

/-! ## The `start` loop runs both phases each tick -/

lemma approvals_foldl_shift (prs : List ReviewedPR) (s : Finset Nat) (l : List Nat) :
    prs.foldl approvals_step (s, l) =
      ((prs.foldl approvals_step (s, [])).1, l ++ (prs.foldl approvals_step (s, [])).2) := by
  induction prs generalizing s l with
  | nil => simp
  | cons p ps ih =>
    simp only [List.foldl_cons]
    by_cases h1 : p.number ∈ s
    · have e1 : approvals_step (s, l) p = (s, l) := by simp [approvals_step, h1]
      have e2 : approvals_step (s, []) p = (s, []) := by simp [approvals_step, h1]
      rw [e1, e2]
      exact ih s l
    · by_cases h2 : p.reviews.contains "APPROVED"
      · have h2m : "APPROVED" ∈ p.reviews := by simpa using h2
        have e1 : approvals_step (s, l) p = (insert p.number s, l ++ [p.number]) := by
          simp [approvals_step, h1, h2m]
        have e2 : approvals_step (s, []) p = (insert p.number s, [p.number]) := by
          simp [approvals_step, h1, h2m]
        rw [e1, e2, ih (insert p.number s) (l ++ [p.number]), ih (insert p.number s) [p.number]]
        simp [List.append_assoc]
      · have h2m : "APPROVED" ∉ p.reviews := by simpa using h2
        have e1 : approvals_step (s, l) p = (s, l) := by simp [approvals_step, h1, h2m]
        have e2 : approvals_step (s, []) p = (s, []) := by simp [approvals_step, h1, h2m]
        rw [e1, e2]
        exact ih s l

lemma approvals_fires (prs : List ReviewedPR) (s : Finset Nat) (pr : ReviewedPR)
    (hmem : pr ∈ prs) (hnot : pr.number ∉ s)
    (happ : pr.reviews.contains "APPROVED" = true) :
    pr.number ∈ (prs.foldl approvals_step (s, [])).2 := by
  induction prs generalizing s with
  | nil => cases hmem
  | cons p ps ih =>
    rcases List.mem_cons.mp hmem with heq | hmem'
    · subst heq
      have happm : "APPROVED" ∈ pr.reviews := by simpa using happ
      have hstep : approvals_step (s, []) pr = (insert pr.number s, [pr.number]) := by
        simp [approvals_step, hnot, happm]
      simp only [List.foldl_cons, hstep]
      rw [approvals_foldl_shift]
      simp
    · by_cases h1 : p.number ∈ s
      · have hstep : approvals_step (s, []) p = (s, []) := by simp [approvals_step, h1]
        simp only [List.foldl_cons, hstep]
        exact ih s hmem' hnot
      · by_cases h2 : p.reviews.contains "APPROVED"
        · have h2m : "APPROVED" ∈ p.reviews := by simpa using h2
          have hstep : approvals_step (s, []) p = (insert p.number s, [p.number]) := by
            simp [approvals_step, h1, h2m]
          simp only [List.foldl_cons, hstep]
          rw [approvals_foldl_shift]
          by_cases h3 : pr.number = p.number
          · simp [h3]
          · have hnot' : pr.number ∉ insert p.number s := by
              simp [Finset.mem_insert, h3, hnot]
            have hrec := ih (insert p.number s) hmem' hnot'
            simp only [List.singleton_append, List.mem_cons]
            exact Or.inr hrec
        · have h2m : "APPROVED" ∉ p.reviews := by simpa using h2
          have hstep : approvals_step (s, []) p = (s, []) := by simp [approvals_step, h1, h2m]
          simp only [List.foldl_cons, hstep]
          exact ih s hmem' hnot

/-- **C5 counterexample**: a single `start`-loop iteration in which an
eligible ready item is promoted (the dispatch callback fires) **and** the
approval scan fires the merge callback for a newly approved PR — the two
activities are not mutually exclusive within one tick. -/
theorem start_iteration_both_counterexample :
    (start_iteration "ready" ⟨∅, ∅⟩ ∅ [readyItem7] ∅ [⟨5, ["APPROVED"]⟩]).1.dispatched
        = some readyItem7 ∧
    (start_iteration "ready" ⟨∅, ∅⟩ ∅ [readyItem7] ∅ [⟨5, ["APPROVED"]⟩]).2.2 = [5] := by
  constructor
  · decide
  · decide

/-- **C5 amended**: each `start`-loop iteration runs *both* phases in
sequence: the promote phase dispatches at most one ready item, and the
approval scan of the same iteration fires the merge callback for every
not-yet-seen request with an approved review. -/
theorem start_iteration_both_phases (trig : String) (st : PollerState)
    (seen_approved : Finset Nat) (items : List ProjectItem) (retry : Finset Nat)
    (prs : List ReviewedPR) :
    (start_iteration trig st seen_approved items retry prs).1.dispatched.toList.length ≤ 1 ∧
    (∀ pr ∈ prs, pr.number ∉ seen_approved → pr.reviews.contains "APPROVED" = true →
      pr.number ∈ (start_iteration trig st seen_approved items retry prs).2.2) := by
  constructor
  · show (poll trig st items retry).dispatched.toList.length ≤ 1
    rcases (poll trig st items retry).dispatched with _ | it <;> simp
  · intro pr hmem hnot happ
    exact approvals_fires prs seen_approved pr hmem hnot happ

/-! ## Ledger helper lemmas -/

lemma le_foldr_max {l : List Nat} {x : Nat} (h : x ∈ l) : x ≤ l.foldr max 0 := by
  induction l with
  | nil => cases h
  | cons a l ih =>
    rcases List.mem_cons.mp h with rfl | h'
    · simp only [List.foldr_cons]
      exact le_max_left _ _
    · simp only [List.foldr_cons]
      exact le_trans (ih h') (le_max_right _ _)

lemma id_lt_next_job_id {db : List StoryJob} {j : StoryJob} (h : j ∈ db) :
    j.id < next_job_id db :=
  Nat.lt_succ_of_le (le_foldr_max (List.mem_map_of_mem (fun k => k.id) h))

lemma fresh_not_in (db : List StoryJob) : ∀ j ∈ db, j.id ≠ next_job_id db :=
  fun j hj => Nat.ne_of_lt (id_lt_next_job_id hj)

lemma update_job_append {db : List StoryJob} {r : StoryJob} {jid : Nat} (f : StoryJob → StoryJob)
    (hfresh : ∀ j ∈ db, j.id ≠ jid) (hr : r.id = jid) :
    update_job (db ++ [r]) jid f = db ++ [f r] := by
  unfold update_job
  rw [List.map_append]
  congr 1
  · conv_rhs => rw [← List.map_id db]
    apply List.map_congr_left
    intro j hj
    simp [if_neg (hfresh j hj)]
  · simp [hr]

lemma take_append_singleton {α : Type} (l : List α) (a : α) :
    (l ++ [a]).take l.length = l := by
  simpa using List.take_left l [a]

/-- All possible Ledger shapes produced by one `process_story` invocation:
when the retry guard blocks, the Ledger is untouched; otherwise exactly
one new row is appended and every pre-existing row survives verbatim. -/
lemma process_story_db_extends (db : List StoryJob) (issue : Nat)
    (title branch : String) (pr : Nat) (ev : RunEvent) :
    (process_story db issue title branch pr ev).db.take db.length = db ∧
    (process_story db issue title branch pr ev).db.length =
      db.length + (if MAX_RETRIES ≤ (past_failures db issue).length then 0 else 1) := by
  by_cases hg : MAX_RETRIES ≤ (past_failures db issue).length
  · simp [process_story, hg, List.take_length]
  · have hfresh := fresh_not_in db
    cases ev with
    | crashBeforeMoveBound tset msg =>
      rcases tset with _ | _
      · simp only [process_story, if_neg hg, seal_crash]
        rw [if_neg (by simp), update_job_append _ hfresh rfl]
        exact ⟨take_append_singleton db _, by simp [hg]⟩
      · simp only [process_story, if_neg hg, seal_crash]
        simp only [if_true]
        rw [update_job_append _ hfresh rfl, update_job_append _ hfresh rfl]
        exact ⟨take_append_singleton db _, by simp [hg]⟩
    | crashBeforeBranch msg =>
      simp only [process_story, if_neg hg, seal_crash]
      rw [update_job_append _ hfresh rfl, update_job_append _ hfresh rfl]
      exact ⟨take_append_singleton db _, by simp [hg]⟩
    | crashAfterBranch msg =>
      simp only [process_story, if_neg hg, seal_crash]
      rw [update_job_append _ hfresh rfl, update_job_append _ hfresh rfl]
      exact ⟨take_append_singleton db _, by simp [hg]⟩
    | crashAfterAgent msg =>
      simp only [process_story, if_neg hg, seal_crash]
      rw [update_job_append _ hfresh rfl, update_job_append _ hfresh rfl]
      exact ⟨take_append_singleton db _, by simp [hg]⟩
    | finished result =>
      by_cases hs : result.success = true
      · simp only [process_story, if_neg hg]
        rw [if_pos hs, update_job_append _ hfresh rfl, update_job_append _ hfresh rfl]
        exact ⟨take_append_singleton db _, by simp [hg]⟩
      · simp only [process_story, if_neg hg]
        rw [if_neg hs, update_job_append _ hfresh rfl, update_job_append _ hfresh rfl]
        exact ⟨take_append_singleton db _, by simp [hg]⟩

lemma reset_ids (db : List StoryJob) :
    (reset_failed_job_records db).map (fun j => j.id) = db.map (fun j => j.id) := by
  unfold reset_failed_job_records
  rw [List.map_map]
  apply List.map_congr_left
  intro j _
  by_cases h : j.status = JobStatus.failed <;> simp [h]

lemma reset_statuses (db : List StoryJob) :
    (reset_failed_job_records db).map (fun j => j.status) =
      db.map (fun j => if j.status = JobStatus.failed then JobStatus.cancelled else j.status) := by
  unfold reset_failed_job_records
  rw [List.map_map]
  apply List.map_congr_left
  intro j _
  by_cases h : j.status = JobStatus.failed <;> simp [h]

/-! ## Ledger claims -/

/-- **C2 counterexample**: `_reset_failed_job_records` (run at every
process start) modifies a row recorded with status `failed`, rewriting its
status to `cancelled` — so it is not true that no operation of the program
ever modifies a failed row. -/
theorem ledger_failed_row_rewritten :
    failedJob7.status = JobStatus.failed ∧
    (reset_failed_job_records [failedJob7]).map (fun j => j.status)
      = [JobStatus.cancelled] := by
  constructor
  · rfl
  · simp [reset_failed_job_records, failedJob7]

/-- **C2 amended**: each dispatch attempt that passes the retry guard
appends exactly one new Ledger row and `process_story` never modifies or
deletes pre-existing rows (failed rows accumulate, one per failed
attempt); the startup reset however rewrites the status of every failed
row to `cancelled`, preserving row count and ids. -/
theorem ledger_append_only_amended (db : List StoryJob) (issue : Nat)
    (title branch : String) (pr : Nat) (ev : RunEvent) :
    (process_story db issue title branch pr ev).db.take db.length = db ∧
    (process_story db issue title branch pr ev).db.length =
      db.length + (if MAX_RETRIES ≤ (past_failures db issue).length then 0 else 1) ∧
    (reset_failed_job_records db).map (fun j => j.id) = db.map (fun j => j.id) ∧
    (reset_failed_job_records db).map (fun j => j.status) =
      db.map (fun j => if j.status = JobStatus.failed then JobStatus.cancelled else j.status) :=
  ⟨(process_story_db_extends db issue title branch pr ev).1,
   (process_story_db_extends db issue title branch pr ev).2,
   reset_ids db, reset_statuses db⟩

/-- **C3**: with at least `MAX_RETRIES = 3` failed Ledger rows for the
issue, `process_story` short-circuits: it returns a blocked result, the
only board move is to `Blocked`, no branch is created, `AgentLoop.run` is
not invoked, no new Ledger row is written, and a summary comment is
posted. -/
theorem retry_guard_short_circuits (db : List StoryJob) (issue : Nat)
    (title branch : String) (pr : Nat) (ev : RunEvent)
    (h : MAX_RETRIES ≤ (past_failures db issue).length) :
    process_story db issue title branch pr ev =
      { db := db, board_moves := ["Blocked"], retry_signal := false,
        branch_created := false, agent_invoked := false, pr_created := none,
        comment_posted := true, result_status := "blocked",
        result_error := some "Exceeded max retries (3)" } := by
  simp [process_story, h]

/-- **C4 counterexample**: an unhandled exception raised after the running
Job row was created but before worker.py line 408 binds the
`_move_status` helper (here: an exception inside `get_issue`) defeats the
except-clause rollback — `asyncio.run(_move_status("Ready"))` raises
`UnboundLocalError`, swallowed at worker.py:570 — so no board move is
requested and the issue is never added to the Redis retry set, although
the row is sealed `failed` with the exception text.  This refutes the
claim as stated, which asserts the Ready move and the recycle signal for
*every* crash after the row was created. -/
theorem crash_early_no_rollback :
    (process_story [] 7 "story" "feature/7-story" 11
        (RunEvent.crashBeforeMoveBound false "github timeout")).board_moves = [] ∧
    (process_story [] 7 "story" "feature/7-story" 11
        (RunEvent.crashBeforeMoveBound false "github timeout")).retry_signal = false ∧
    ((process_story [] 7 "story" "feature/7-story" 11
        (RunEvent.crashBeforeMoveBound false "github timeout")).db.map
          (fun j => (j.issue_number, j.status, j.error_message)))
      = [(7, JobStatus.failed, "github timeout")] := by
  decide

/-- **C4 (amended)**: an unhandled exception raised at a point where the
`_move_status` helper is already bound — which includes every crash after
Branching and before Coding completes — moves the board item back to
`Ready`, adds the issue to the Redis retry set, and seals the new row as
`failed` with the exception text; on the poller side, a tick seeing the
issue in its seen set, in the retry set and in the trigger status makes
it eligible again, and dispatches it when it is the first eligible item
in board order.  An exception raised earlier in the `try` body (after the
running row was created but before `asyncio`/`_move_status` are bound)
still seals the row `failed`, but the swallowed `UnboundLocalError` means
no board move is requested and no recycle signal is set. -/
theorem crash_rollback_recycle_redispatch
    (db : List StoryJob) (issue : Nat) (title branch : String) (pr : Nat)
    (ev : RunEvent) (msg : String) (tset : Bool) (msg2 : String)
    (trig : String) (st : PollerState) (items : List ProjectItem)
    (retry : Finset Nat) (it : ProjectItem)
    (hguard : (past_failures db issue).length < MAX_RETRIES)
    (hcrash : rollback_crash_msg ev = some msg)
    (htrig : trig ≠ "")
    (hseen : issue ∈ st.seen_issues)
    (hretry : issue ∈ retry)
    (hstat : status_by_issue items issue = trig)
    (hfe : first_eligible trig items (seen_pre_dispatch trig st items retry) = some it)
    (hit : it.issue_number = issue) :
    (process_story db issue title branch pr ev).board_moves.getLast? = some "Ready" ∧
    (process_story db issue title branch pr ev).retry_signal = true ∧
    (process_story db issue title branch pr ev).db.take db.length = db ∧
    (process_story db issue title branch pr ev).db.length = db.length + 1 ∧
    ((process_story db issue title branch pr ev).db.getLast?.map
        (fun j => (j.issue_number, j.status, j.error_message, j.completed)))
      = some (issue, JobStatus.failed, msg, true) ∧
    issue ∉ seen_pre_dispatch trig st items retry ∧
    (poll trig st items retry).dispatched = some it ∧
    (process_story db issue title branch pr
        (RunEvent.crashBeforeMoveBound tset msg2)).board_moves = [] ∧
    (process_story db issue title branch pr
        (RunEvent.crashBeforeMoveBound tset msg2)).retry_signal = false ∧
    ((process_story db issue title branch pr
        (RunEvent.crashBeforeMoveBound tset msg2)).db.getLast?.map
          (fun j => (j.issue_number, j.status, j.error_message, j.completed)))
      = some (issue, JobStatus.failed, msg2, true) := by
  have hne : ¬ MAX_RETRIES ≤ (past_failures db issue).length := Nat.not_le.mpr hguard
  have hfresh := fresh_not_in db
  have hready : issue ∈ ready_issues trig items := status_mem_ready hstat htrig
  have hnotpre : issue ∉ seen_pre_dispatch trig st items retry := by
    intro hpre
    have hsar := (Finset.mem_sdiff.mp hpre).1
    exact (Finset.mem_sdiff.mp hpre).2
      (Finset.mem_inter.mpr ⟨Finset.mem_inter.mpr ⟨hretry, hsar⟩, hready⟩)
  have hdisp : (poll trig st items retry).dispatched = some it := by
    rw [poll_dispatched_eq]
    exact hfe
  have hearly_moves : (process_story db issue title branch pr
      (RunEvent.crashBeforeMoveBound tset msg2)).board_moves = [] := by
    simp [process_story, hne]
  have hearly_retry : (process_story db issue title branch pr
      (RunEvent.crashBeforeMoveBound tset msg2)).retry_signal = false := by
    simp [process_story, hne]
  have hearly_db : ((process_story db issue title branch pr
      (RunEvent.crashBeforeMoveBound tset msg2)).db.getLast?.map
        (fun j => (j.issue_number, j.status, j.error_message, j.completed)))
      = some (issue, JobStatus.failed, msg2, true) := by
    rcases tset with _ | _
    · have hdbe : (process_story db issue title branch pr
          (RunEvent.crashBeforeMoveBound false msg2)).db
          = db ++ [{ new_running_job (next_job_id db) issue with
              status := JobStatus.failed, error_message := msg2, completed := true }] := by
        simp only [process_story, if_neg hne, seal_crash]
        rw [if_neg (by simp), update_job_append _ hfresh rfl]
      rw [hdbe]
      simp [List.getLast?_concat, new_running_job]
    · have hdbe : (process_story db issue title branch pr
          (RunEvent.crashBeforeMoveBound true msg2)).db
          = db ++ [{ new_running_job (next_job_id db) issue with
              issue_title := title, status := JobStatus.failed,
              error_message := msg2, completed := true }] := by
        simp only [process_story, if_neg hne, seal_crash]
        simp only [if_true]
        rw [update_job_append _ hfresh rfl, update_job_append _ hfresh rfl]
      rw [hdbe]
      simp [List.getLast?_concat, new_running_job]
  cases ev with
  | finished result => cases hcrash
  | crashBeforeMoveBound tset' m => cases hcrash
  | crashBeforeBranch m =>
    have hm : m = msg := Option.some.inj hcrash
    subst m
    have hdb : (process_story db issue title branch pr (RunEvent.crashBeforeBranch msg)).db
        = db ++ [{ new_running_job (next_job_id db) issue with
            issue_title := title, status := JobStatus.failed,
            error_message := msg, completed := true }] := by
      simp only [process_story, if_neg hne, seal_crash]
      rw [update_job_append _ hfresh rfl, update_job_append _ hfresh rfl]
    refine ⟨?_, ?_, ?_, ?_, ?_, hnotpre, hdisp, hearly_moves, hearly_retry, hearly_db⟩
    · simp [process_story, hne]
    · simp [process_story, hne]
    · rw [hdb]
      exact take_append_singleton db _
    · rw [hdb]
      simp
    · rw [hdb]
      simp [List.getLast?_concat, new_running_job]
  | crashAfterBranch m =>
    have hm : m = msg := Option.some.inj hcrash
    subst m
    have hdb : (process_story db issue title branch pr (RunEvent.crashAfterBranch msg)).db
        = db ++ [{ new_running_job (next_job_id db) issue with
            issue_title := title, status := JobStatus.failed,
            error_message := msg, completed := true }] := by
      simp only [process_story, if_neg hne, seal_crash]
      rw [update_job_append _ hfresh rfl, update_job_append _ hfresh rfl]
    refine ⟨?_, ?_, ?_, ?_, ?_, hnotpre, hdisp, hearly_moves, hearly_retry, hearly_db⟩
    · simp [process_story, hne]
    · simp [process_story, hne]
    · rw [hdb]
      exact take_append_singleton db _
    · rw [hdb]
      simp
    · rw [hdb]
      simp [List.getLast?_concat, new_running_job]
  | crashAfterAgent m =>
    have hm : m = msg := Option.some.inj hcrash
    subst m
    have hdb : (process_story db issue title branch pr (RunEvent.crashAfterAgent msg)).db
        = db ++ [{ new_running_job (next_job_id db) issue with
            issue_title := title, status := JobStatus.failed,
            error_message := msg, completed := true }] := by
      simp only [process_story, if_neg hne, seal_crash]
      rw [update_job_append _ hfresh rfl, update_job_append _ hfresh rfl]
    refine ⟨?_, ?_, ?_, ?_, ?_, hnotpre, hdisp, hearly_moves, hearly_retry, hearly_db⟩
    · simp [process_story, hne]
    · simp [process_story, hne]
    · rw [hdb]
      exact take_append_singleton db _
    · rw [hdb]
      simp
    · rw [hdb]
      simp [List.getLast?_concat, new_running_job]

/-! ## Merge-pipeline and push-guard claims -/

/-- **C7**: a PR with at least one `APPROVED` review whose base branch is
(case-insensitively) `main` or `master` makes `rebase_merge` return
`success = false`, `complex = false` with the protected-branch message,
without ever invoking the native merge operation. -/
theorem approved_protected_branch_merge (pr : PullReqInfo) (api : ApiMergeResult)
    (wd : Bool) (loc : LocalRebaseRun)
    (happr : pr.reviews.contains "APPROVED" = true)
    (hbase : strLower pr.base_ref = "main" ∨ strLower pr.base_ref = "master") :
    rebase_merge pr api wd loc =
      { success := false, complex := false,
        message := "Cannot merge into protected branch '" ++ pr.base_ref ++ "'.",
        native_merge_calls := 0 } := by
  have hm : "APPROVED" ∈ pr.reviews := by simpa using happr
  unfold rebase_merge
  rw [if_neg (by simp [hm]), if_pos hbase]

/-- **C8**: when the branch name is (case-insensitively) `develop`, `main`
or `master`, `_commit_and_push` never pushes: with staged changes it
raises the protected-branch `ValueError` before any push; with nothing
staged it returns `True` without pushing. -/
theorem no_push_to_protected_branch (branch : String) (has_changes : Bool)
    (h : protected_branch_names.contains (strLower branch) = true) :
    (commit_and_push branch has_changes).1.pushed = false ∧
    (commit_and_push branch true).2
      = Except.error ("Refusing to push to protected branch: " ++ branch) ∧
    (commit_and_push branch false).2 = Except.ok true := by
  have hm : strLower branch ∈ protected_branch_names := by simpa using h
  refine ⟨?_, ?_, ?_⟩
  · rcases has_changes with _ | _
    · simp [commit_and_push]
    · simp [commit_and_push, hm]
  · simp [commit_and_push, hm]
  · simp [commit_and_push]

/-! ## RecoveryScan claim -/

lemma mem_active_issues {jobs : List QueueJob} {n : Nat} :
    n ∈ active_issues jobs ↔
      ∃ j ∈ jobs, j.func_name = process_story_func ∧ j.args.head? = some n := by
  unfold active_issues
  simp only [List.mem_toFinset, List.mem_filterMap, List.mem_filter, Bool.and_eq_true,
    beq_iff_eq, Bool.not_eq_true']
  constructor
  · rintro ⟨j, ⟨hj, hf, hne⟩, hh⟩
    exact ⟨j, hj, hf, hh⟩
  · rintro ⟨j, hj, hf, hh⟩
    refine ⟨j, ⟨hj, hf, ?_⟩, hh⟩
    cases harg : j.args with
    | nil =>
      rw [harg] at hh
      cases hh
    | cons a l => simp [harg]

/-- **C9**: `_recover_interrupted_jobs` moves a board item back to `Ready`
iff its status is (case-insensitively) `in progress` and no queued or
started background job has function `process_story` with that item's
issue number as first argument; in-progress items with such a live job
are left untouched. -/
theorem recovery_scan_demotes (items : List ProjectItem) (queued started : List QueueJob)
    (it : ProjectItem) (hmem : it ∈ items) :
    it ∈ recover_interrupted_jobs items queued started ↔
      (strLower it.status = "in progress" ∧
        ¬ ∃ j ∈ queued ++ started, j.func_name = process_story_func ∧
            j.args.head? = some it.issue_number) := by
  unfold recover_interrupted_jobs
  constructor
  · intro h
    have h1 := List.mem_filter.mp h
    have h2 := List.mem_filter.mp h1.1
    refine ⟨by simpa using h2.2, ?_⟩
    intro hex
    have hact : it.issue_number ∈ active_issues (queued ++ started) :=
      mem_active_issues.mpr hex
    have hb := h1.2
    simp only [Bool.not_eq_true', decide_eq_false_iff_not] at hb
    exact hb hact
  · rintro ⟨hstat, hnex⟩
    refine List.mem_filter.mpr ⟨List.mem_filter.mpr ⟨hmem, by simpa using hstat⟩, ?_⟩
    simp only [Bool.not_eq_true', decide_eq_false_iff_not]
    intro hact
    exact hnex (mem_active_issues.mp hact)

/-! ## Witnesses: the claim theorems applied at concrete inputs -/

/-- Witness for **C1**: issue 7, continuously `Ready` over two ticks with
no retry signal, is dispatched exactly once. -/
theorem trigger_dispatch_exactly_once_witness :
    (run_poller "ready" ⟨∅, ∅⟩ [readyTick7, readyTick7]).2.count 7 = 1 :=
  (trigger_dispatch_exactly_once "ready" ⟨∅, ∅⟩ [readyTick7, readyTick7] 7
      (by decide)).2 [] readyTick7 [readyTick7] readyItem7 rfl (by decide) rfl

/-- Witness for **C3**: with three failed rows for issue 7, a fourth
invocation short-circuits to `Blocked`. -/
theorem retry_guard_short_circuits_witness :
    process_story threeFailures7 7 "story" "feature/7-story" 11
        (RunEvent.finished ⟨true, 1, [], "", ""⟩) =
      { db := threeFailures7, board_moves := ["Blocked"], retry_signal := false,
        branch_created := false, agent_invoked := false, pr_created := none,
        comment_posted := true, result_status := "blocked",
        result_error := some "Exceeded max retries (3)" } :=
  retry_guard_short_circuits threeFailures7 7 "story" "feature/7-story" 11
    (RunEvent.finished ⟨true, 1, [], "", ""⟩) (by decide)

/-- Witness for **C4 (amended)**: a crash after branching on an empty
Ledger rolls the board back to `Ready`, signals a retry, seals a failed
row with the exception text, and the poller tick consuming the signal
re-dispatches issue 7; an early crash (helper not yet bound) seals the
row but requests no board move and no retry signal. -/
theorem crash_rollback_recycle_redispatch_witness :
    (process_story [] 7 "story" "feature/7-story" 11
        (RunEvent.crashAfterBranch "boom")).board_moves.getLast? = some "Ready" ∧
    (process_story [] 7 "story" "feature/7-story" 11
        (RunEvent.crashAfterBranch "boom")).retry_signal = true ∧
    (process_story [] 7 "story" "feature/7-story" 11
        (RunEvent.crashAfterBranch "boom")).db.take (List.length ([] : List StoryJob)) = [] ∧
    (process_story [] 7 "story" "feature/7-story" 11
        (RunEvent.crashAfterBranch "boom")).db.length
      = (List.length ([] : List StoryJob)) + 1 ∧
    ((process_story [] 7 "story" "feature/7-story" 11
        (RunEvent.crashAfterBranch "boom")).db.getLast?.map
          (fun j => (j.issue_number, j.status, j.error_message, j.completed)))
      = some (7, JobStatus.failed, "boom", true) ∧
    7 ∉ seen_pre_dispatch "ready" ⟨{7}, ∅⟩ [readyItem7] {7} ∧
    (poll "ready" ⟨{7}, ∅⟩ [readyItem7] {7}).dispatched = some readyItem7 ∧
    (process_story [] 7 "story" "feature/7-story" 11
        (RunEvent.crashBeforeMoveBound false "api error")).board_moves = [] ∧
    (process_story [] 7 "story" "feature/7-story" 11
        (RunEvent.crashBeforeMoveBound false "api error")).retry_signal = false ∧
    ((process_story [] 7 "story" "feature/7-story" 11
        (RunEvent.crashBeforeMoveBound false "api error")).db.getLast?.map
          (fun j => (j.issue_number, j.status, j.error_message, j.completed)))
      = some (7, JobStatus.failed, "api error", true) :=
  crash_rollback_recycle_redispatch [] 7 "story" "feature/7-story" 11
    (RunEvent.crashAfterBranch "boom") "boom" false "api error"
    "ready" ⟨{7}, ∅⟩ [readyItem7] {7} readyItem7
    (by decide) rfl (by decide) (by decide) (by decide) (by decide) (by decide) rfl

/-- Witness for **C5 (amended)**: the same iteration both dispatches at
most one item and fires the merge callback for the newly approved PR 5. -/
theorem start_iteration_both_phases_witness :
    (start_iteration "ready" ⟨∅, ∅⟩ ∅ [readyItem7] ∅
        [⟨5, ["APPROVED"]⟩]).1.dispatched.toList.length ≤ 1 ∧
    5 ∈ (start_iteration "ready" ⟨∅, ∅⟩ ∅ [readyItem7] ∅ [⟨5, ["APPROVED"]⟩]).2.2 := by
  have h := start_iteration_both_phases "ready" ⟨∅, ∅⟩ ∅ [readyItem7] ∅ [⟨5, ["APPROVED"]⟩]
  exact ⟨h.1, h.2 ⟨5, ["APPROVED"]⟩ (by decide) (by decide) (by decide)⟩

/-- Witness for **C6**: issue 7, dispatched earlier, observed `In
progress` for one tick and back in `Ready` the next, is cleared and
re-dispatched. -/
theorem roundtrip_recycle_redispatch_witness :
    7 ∈ (run_poller "ready" ⟨{7}, ∅⟩ [inProgressTick7]).1.seen_issues ∧
    7 ∈ (run_poller "ready" ⟨{7}, ∅⟩ [inProgressTick7]).1.left_ready ∧
    7 ∉ seen_pre_dispatch "ready" (run_poller "ready" ⟨{7}, ∅⟩ [inProgressTick7]).1
        readyTick7.items readyTick7.retry ∧
    7 ∉ left_pre_dispatch "ready" (run_poller "ready" ⟨{7}, ∅⟩ [inProgressTick7]).1
        readyTick7.items readyTick7.retry ∧
    (poll "ready" (run_poller "ready" ⟨{7}, ∅⟩ [inProgressTick7]).1
        readyTick7.items readyTick7.retry).dispatched = some readyItem7 := by
  have h := roundtrip_recycle_redispatch "ready" ⟨{7}, ∅⟩ 7 inProgressTick7 [] readyTick7
    (by decide) (by decide) (by decide) (by decide) (by decide) (by decide) (by decide)
  exact ⟨h.1, h.2.1, h.2.2.1, h.2.2.2.1, h.2.2.2.2 readyItem7 (by decide)⟩

/-- Witness for **C7**: an approved PR targeting `main` is refused with
the protected-branch message and zero native merge calls. -/
theorem approved_protected_branch_merge_witness :
    rebase_merge ⟨3, "feature/x", "main", ["APPROVED"]⟩ ApiMergeResult.ok true
        (LocalRebaseRun.clean ApiMergeResult.ok) =
      { success := false, complex := false,
        message := "Cannot merge into protected branch '" ++ "main" ++ "'.",
        native_merge_calls := 0 } :=
  approved_protected_branch_merge ⟨3, "feature/x", "main", ["APPROVED"]⟩ ApiMergeResult.ok
    true (LocalRebaseRun.clean ApiMergeResult.ok) (by decide) (Or.inl (by decide))

/-- Witness for **C8**: pushing to `main` is refused. -/
theorem no_push_to_protected_branch_witness :
    (commit_and_push "main" true).1.pushed = false ∧
    (commit_and_push "main" true).2
      = Except.error ("Refusing to push to protected branch: " ++ "main") ∧
    (commit_and_push "main" false).2 = Except.ok true :=
  no_push_to_protected_branch "main" true (by decide)

/-- Witness for **C9**: the orphaned in-progress item 9 is demoted while
item 8, which has a live `process_story` job, is not among the demoted
(the theorem applied to item 9). -/
theorem recovery_scan_demotes_witness :
    orphanItem9 ∈ recover_interrupted_jobs [orphanItem9, busyItem8] [] [liveJob8] :=
  (recovery_scan_demotes [orphanItem9, busyItem8] [] [liveJob8] orphanItem9 (by decide)).mpr
    ⟨by decide, by decide⟩

/-- Witness for **C10**: a consumed signal for issue 7 implies 7 was in
the seen set, among the ready issues, and is eligible again. -/
theorem retry_signal_consumed_only_if_witness :
    7 ∈ (PollerState.mk {7} ∅).seen_issues ∧
    7 ∈ ready_issues "ready" [readyItem7] ∧
    7 ∉ seen_pre_dispatch "ready" ⟨{7}, ∅⟩ [readyItem7] {7} :=
  (retry_signal_consumed_only_if "ready" ⟨{7}, ∅⟩ [readyItem7] {7} 7 (by decide)).1
    (by decide)

end Sambot
